import Mathlib

/-!
Shallow embedding of the LinkSnap URL shortener core (server.js): short-code
allocation, the cache-aside redirect pipeline, and the asynchronous click
recorder, together with theorems settling the specified properties.

The Durable Store (PostgreSQL `urls` table) is a list of records with a
uniqueness constraint on `shortCode` (column `short_code VARCHAR(20) UNIQUE`)
and a length constraint of 20 on `short_code` and 50 on `custom_alias`.
The Cache Layer (Redis) is an association list keyed by short code; a set
prepends (overwrite semantics: lookup takes the first binding).  The entropy
source behind Math.random is modelled as an explicit stream of draws: one
list of 7 alphabet indices per generateShortCode call.
-/

namespace LinkSnap

/-- A row of the `urls` table. -/
structure UrlRecord where
  id : Nat
  userId : Nat
  originalUrl : String
  shortCode : String
  customAlias : Option String
  expiresAt : Option Int
  isActive : Bool
  clickCount : Nat
deriving Repr, DecidableEq

/-- A row of the append-only `analytics` table (context metadata elided). -/
structure ClickEvent where
  urlId : Nat
deriving Repr, DecidableEq

/-- The state visible to the core: durable store, cache, analytics log, and
the store's id sequence. -/
structure ServerState where
  urls : List UrlRecord
  cache : List (String × UrlRecord)
  events : List ClickEvent
  nextId : Nat
deriving Repr, DecidableEq

/-- The 62-character alphabet of generateShortCode. -/
def codeAlphabet : String := "ABCDEFGHIJKLMNOPQRSTUVWXYZabcdefghijklmnopqrstuvwxyz0123456789"

/-- JavaScript String.charAt: the one-character string at index i, or the
empty string out of range. -/
def charAt (s : String) (i : Nat) : String :=
  match s.data.get? i with
  | some c => String.mk [c]
  | none => ""

/-- The character list built by the 7-iteration loop of generateShortCode:
each iteration appends charAt of the next draw. -/
def genChars : List Nat → List Char
  | [] => []
  | k :: rest => (charAt codeAlphabet k).data ++ genChars rest

/-- generateShortCode: 7 iterations, each appending one alphabet character
selected by a draw (the value of floor of random times 62). -/
def generateShortCode (draws : List Nat) : String :=
  String.mk (genChars (draws.take 7))

/-- Whether the first list is an initial segment of the second. -/
def leadsWith : List Char → List Char → Bool
  | [], _ => true
  | _ :: _, [] => false
  | a :: as, b :: bs => (a == b) && leadsWith as bs

/-- validateUrl: validator.isURL with protocols http and https and
require_protocol; modelled as requiring an explicit http or https scheme
(the validator library is an external collaborator, not repository source). -/
def validateUrl (url : String) : Bool :=
  leadsWith ("http://").data url.data || leadsWith ("https://").data url.data

/-- JavaScript truthiness of an optional string (undefined and the empty
string are falsy). -/
def jsTruthyStr : Option String → Bool
  | none => false
  | some s => !(s == "")

/-- JavaScript truthiness of an optional number (undefined and 0 are falsy). -/
def jsTruthyInt : Option Int → Bool
  | none => false
  | some n => !(n == 0)

/-- The expiresAt computation of the shorten handler: `let expiresAt = null;
if (expiresIn) expiresAt = Date.now() + expiresIn*24*60*60*1000`. -/
def computeExpiresAt (expiresIn : Option Int) (now : Int) : Option Int :=
  if jsTruthyInt expiresIn then
    match expiresIn with
    | some n => some (now + n * 86400000)
    | none => none
  else none

/-- PostgreSQL length constraints on the insert: short_code VARCHAR(20),
custom_alias VARCHAR(50); an over-long value raises. -/
def tooLong (code : String) (ca : Option String) : Bool :=
  (code.length > 20) || (match ca with
    | some a => a.length > 50
    | none => false)

/-- The fresh row built by `INSERT INTO urls ... RETURNING *`: id from the
sequence, is_active defaulting TRUE, click_count defaulting 0. -/
def freshRecord (st : ServerState) (uid : Nat) (url code : String)
    (ca : Option String) (ea : Option Int) : UrlRecord :=
  { id := st.nextId, userId := uid, originalUrl := url, shortCode := code,
    customAlias := ca, expiresAt := ea, isActive := true, clickCount := 0 }

/-- Outcome of the store insert. -/
inductive InsertOutcome where
  | inserted (r : UrlRecord) (st : ServerState)
  | uniqueViolation
  | valueTooLong
deriving Repr

/-- The store state after a successful insert: the row appended, the id
sequence advanced. -/
def insertedState (st : ServerState) (r : UrlRecord) : ServerState :=
  { st with urls := st.urls ++ [r], nextId := st.nextId + 1 }

/-- The atomic store insert under the short_code uniqueness constraint and
the column length limits. -/
def insertUrl (st : ServerState) (uid : Nat) (url code : String)
    (ca : Option String) (ea : Option Int) : InsertOutcome :=
  if tooLong code ca then InsertOutcome.valueTooLong
  else if st.urls.any (fun r => r.shortCode == code) then InsertOutcome.uniqueViolation
  else InsertOutcome.inserted (freshRecord st uid url code ca ea)
    (insertedState st (freshRecord st uid url code ca ea))

/-- setCachedUrl: a cache write keyed by the short code; errors are caught
and swallowed, so a failing cache leaves the state unchanged. -/
def setCache (st : ServerState) (code : String) (r : UrlRecord)
    (cacheFails : Bool) : ServerState :=
  if cacheFails then st else { st with cache := (code, r) :: st.cache }

/-- getCachedUrl: first binding for the code; a cache error is caught and
returns null (treated as a miss by the caller). -/
def lookupCache (cache : List (String × UrlRecord)) (code : String) :
    Option UrlRecord :=
  (cache.find? (fun e => e.1 == code)).map (fun e => e.2)

/-- `SELECT * FROM urls WHERE short_code = $1 AND is_active = TRUE`. -/
def storeFindActive (urls : List UrlRecord) (code : String) : Option UrlRecord :=
  urls.find? (fun r => r.shortCode == code && r.isActive)

/-- Result of a shorten request (the HTTP outcomes of POST api shorten).
`looping` marks the generate loop not having terminated within the supplied
entropy stream (the source loop would still be spinning). -/
inductive ShortenResult where
  | created (r : UrlRecord)
  | invalidUrl
  | aliasTaken
  | internal
  | looping
deriving Repr, DecidableEq

/-- The tail of the shorten handler once a code is chosen: compute expiresAt,
insert, write-through the cache, 201; an insert error falls into the generic
catch and surfaces as 500 internal. -/
def finishInsert (st : ServerState) (uid : Nat) (url code : String)
    (ca : Option String) (expiresIn : Option Int) (now : Int)
    (cacheFails : Bool) : ShortenResult × ServerState :=
  match insertUrl st uid url code ca (computeExpiresAt expiresIn now) with
  | InsertOutcome.inserted r st1 => (ShortenResult.created r, setCache st1 code r cacheFails)
  | InsertOutcome.uniqueViolation => (ShortenResult.internal, st)
  | InsertOutcome.valueTooLong => (ShortenResult.internal, st)

/-- The `do generate; check while (taken)` loop: one recursive step per
iteration, consuming one chunk of entropy per generateShortCode call; `none`
when the modelled stream is exhausted with every candidate colliding (the
source loop does not terminate within that stream). -/
def findFreeCode (urls : List UrlRecord) : List (List Nat) → Option String
  | [] => none
  | d :: rest =>
    let code := generateShortCode d
    if urls.any (fun r => r.shortCode == code) then findFreeCode urls rest
    else some code

/-- The POST api shorten handler: validate the URL; on a truthy custom alias,
run the separate existence check and fail aliasTaken if a row exists, else
insert the alias as the short code; otherwise loop generating candidates
until one is free, then insert. -/
def shorten (st : ServerState) (uid : Nat) (originalUrl : String)
    (customAlias : Option String) (expiresIn : Option Int)
    (draws : List (List Nat)) (now : Int) (cacheFails : Bool) :
    ShortenResult × ServerState :=
  if !validateUrl originalUrl then (ShortenResult.invalidUrl, st)
  else if jsTruthyStr customAlias then
    if st.urls.any (fun r => r.shortCode == customAlias.getD ("")) then
      (ShortenResult.aliasTaken, st)
    else finishInsert st uid originalUrl (customAlias.getD ("")) customAlias expiresIn now cacheFails
  else
    match findFreeCode st.urls draws with
    | none => (ShortenResult.looping, st)
    | some code => finishInsert st uid originalUrl code customAlias expiresIn now cacheFails

/-- Result of a redirect request (the HTTP outcomes of GET colon shortCode). -/
inductive ResolveResult where
  | redirect (url : String) (id : Nat)
  | notFound
  | expired
deriving Repr, DecidableEq

/-- The cache-aside lookup of the redirect handler: try the cache (a cache
error reads as a miss); on miss query the store for an active row and, when
found, write it back into the cache (best-effort). Returns the record used
and the state after any cache population. -/
def lookupRecord (st : ServerState) (code : String) (cacheFails : Bool) :
    Option (UrlRecord × ServerState) :=
  match (if cacheFails then none else lookupCache st.cache code) with
  | some r => some (r, st)
  | none =>
    match storeFindActive st.urls code with
    | none => none
    | some r => some (r, setCache st code r cacheFails)

/-- The expiry check: `urlData.expires_at && new Date() > new Date(expires_at)`. -/
def isExpired (expiresAt : Option Int) (now : Int) : Bool :=
  match expiresAt with
  | none => false
  | some t => now > t

/-- The redirect handler up to dispatching the response: cache-aside lookup,
404 when nothing is found, 410 when expired, else the 301 redirect. -/
def resolveCore (st : ServerState) (code : String) (now : Int)
    (cacheFails : Bool) : ResolveResult × ServerState :=
  match lookupRecord st code cacheFails with
  | none => (ResolveResult.notFound, st)
  | some (r, st1) =>
    if isExpired r.expiresAt now then (ResolveResult.expired, st1)
    else (ResolveResult.redirect r.originalUrl r.id, st1)

/-- `UPDATE urls SET click_count = click_count + 1 WHERE id = $1`: a relative
increment applied in the store; the cache copy is left untouched. -/
def incrementClick (st : ServerState) (urlId : Nat) : ServerState :=
  { st with urls := st.urls.map (fun r =>
      if r.id == urlId then { r with clickCount := r.clickCount + 1 } else r) }

/-- `INSERT INTO analytics ...`: append one click event. -/
def appendEvent (st : ServerState) (urlId : Nat) : ServerState :=
  { st with events := st.events ++ [{ urlId := urlId }] }

/-- The setImmediate analytics task: one try block running the counter update
then the event append; a throw in either lands in the catch, which logs and
swallows, so a failing update skips the append and a failing append keeps the
already-committed update. -/
def recordClick (st : ServerState) (urlId : Nat)
    (updateFails insertFails : Bool) : ServerState :=
  if updateFails then st
  else
    let st1 := incrementClick st urlId
    if insertFails then st1 else appendEvent st1 urlId

/-- The whole redirect request: resolve, and on a successful redirect run the
scheduled click-recording task (after the response is dispatched). -/
def handleRedirect (st : ServerState) (code : String) (now : Int)
    (cacheFails updateFails insertFails : Bool) : ResolveResult × ServerState :=
  match resolveCore st code now cacheFails with
  | (ResolveResult.redirect u i, st1) =>
      (ResolveResult.redirect u i, recordClick st1 i updateFails insertFails)
  | other => other

/-- One shorten request carrying a custom alias. -/
structure AliasRequest where
  userId : Nat
  originalUrl : String
  chosenAlias : String
  expiresIn : Option Int
deriving Repr

/-- The separate existence check of the alias path:
`SELECT id FROM urls WHERE short_code = $1` returned at least one row. -/
def aliasTakenCheck (st : ServerState) (a : String) : Bool :=
  st.urls.any (fun r => r.shortCode == a)

/-- The insert tail of the alias path. -/
def aliasInsertStep (st : ServerState) (q : AliasRequest) (now : Int) :
    ShortenResult × ServerState :=
  finishInsert st q.userId q.originalUrl q.chosenAlias (some q.chosenAlias) q.expiresIn now false

/-- Two concurrent shorten requests with custom aliases, interleaved under
the schedule (check of request 1, check of request 2, insert of request 1,
insert of request 2).  Each store operation is atomic on its own, but the
handler's existence check and its insert are two separate store operations,
exactly as in the source. -/
def twoAliasBothCheckFirst (st : ServerState) (q1 q2 : AliasRequest)
    (now : Int) : ShortenResult × ShortenResult × ServerState :=
  if !validateUrl q1.originalUrl then
    let o2 := shorten st q2.userId q2.originalUrl (some q2.chosenAlias) q2.expiresIn [] now false
    (ShortenResult.invalidUrl, o2.1, o2.2)
  else if !validateUrl q2.originalUrl then
    let o1 := shorten st q1.userId q1.originalUrl (some q1.chosenAlias) q1.expiresIn [] now false
    (o1.1, ShortenResult.invalidUrl, o1.2)
  else
    let t1 := aliasTakenCheck st q1.chosenAlias
    let t2 := aliasTakenCheck st q2.chosenAlias
    let o1 := if t1 then (ShortenResult.aliasTaken, st) else aliasInsertStep st q1 now
    let o2 := if t2 then (ShortenResult.aliasTaken, o1.2) else aliasInsertStep o1.2 q2 now
    (o1.1, o2.1, o2.2)

/-! ### Concrete states used by counterexamples and witnesses -/

/-- A fresh server state: empty store and cache, id sequence at 1. -/
def emptyState : ServerState := { urls := [], cache := [], events := [], nextId := 1 }

/-- Race scenario, request 1. -/
def raceReq1 : AliasRequest :=
  { userId := 1, originalUrl := "https://one.example", chosenAlias := "mylink", expiresIn := none }

/-- Race scenario, request 2. -/
def raceReq2 : AliasRequest :=
  { userId := 2, originalUrl := "https://two.example", chosenAlias := "mylink", expiresIn := none }

/-- The record created by the winning request of the race scenario. -/
def raceRecord : UrlRecord :=
  { id := 1, userId := 1, originalUrl := "https://one.example", shortCode := "mylink",
    customAlias := some "mylink", expiresAt := none, isActive := true, clickCount := 0 }

/-- A store already holding the code `AAAAAAA` (the candidate produced by a
draw chunk of seven zeros). -/
def collisionState : ServerState :=
  { urls := [{ id := 1, userId := 1, originalUrl := "https://old.example",
               shortCode := "AAAAAAA", customAlias := none, expiresAt := none,
               isActive := true, clickCount := 0 }],
    cache := [], events := [], nextId := 2 }

/-- An entropy stream whose first eleven generateShortCode calls all collide
with the stored code and whose twelfth is free. -/
def collisionDraws : List (List Nat) :=
  List.replicate 11 [0, 0, 0, 0, 0, 0, 0] ++ [[1, 0, 0, 0, 0, 0, 0]]

/-- A store whose record for `abc` has been deactivated while the cache still
holds the snapshot taken when it was active. -/
def staleState : ServerState :=
  { urls := [{ id := 1, userId := 1, originalUrl := "https://target.example",
               shortCode := "abc", customAlias := none, expiresAt := none,
               isActive := false, clickCount := 0 }],
    cache := [("abc", { id := 1, userId := 1, originalUrl := "https://target.example",
                        shortCode := "abc", customAlias := none, expiresAt := none,
                        isActive := true, clickCount := 0 })],
    events := [], nextId := 2 }

/-- The deactivated record for `abc` with nothing cached. -/
def missState : ServerState :=
  { urls := [{ id := 1, userId := 1, originalUrl := "https://target.example",
               shortCode := "abc", customAlias := none, expiresAt := none,
               isActive := false, clickCount := 0 }],
    cache := [], events := [], nextId := 2 }

/-- A record that expired at time 5. -/
def expiredRecord : UrlRecord :=
  { id := 1, userId := 1, originalUrl := "https://gone.example", shortCode := "old",
    customAlias := none, expiresAt := some 5, isActive := true, clickCount := 0 }

/-- State holding the expired record in both store and cache. -/
def expiredState : ServerState :=
  { urls := [expiredRecord], cache := [("old", expiredRecord)], events := [], nextId := 2 }

/-- An active, never-expiring record reachable only through the store. -/
def storeOnlyRecord : UrlRecord :=
  { id := 1, userId := 1, originalUrl := "https://store.example", shortCode := "xyz",
    customAlias := none, expiresAt := none, isActive := true, clickCount := 0 }

/-- State holding the store-only record; the cache is empty (and in the C8
scenario every cache operation fails anyway). -/
def storeOnlyState : ServerState :=
  { urls := [storeOnlyRecord], cache := [], events := [], nextId := 2 }

/-- A record (id 1) that has been clicked three times. -/
def clickRecordBase : UrlRecord :=
  { id := 1, userId := 1, originalUrl := "https://hit.example", shortCode := "hit",
    customAlias := none, expiresAt := none, isActive := true, clickCount := 3 }

/-- A state with one record (id 1) and an empty analytics log. -/
def clickState : ServerState :=
  { urls := [clickRecordBase], cache := [], events := [], nextId := 2 }

/-- The record created by allocating `https://example.com` with expiresIn 0
on the empty store (entropy chunk 0..6, hence code `ABCDEFG`). -/
def zeroExpiryRecord : UrlRecord :=
  { id := 1, userId := 1, originalUrl := "https://example.com", shortCode := "ABCDEFG",
    customAlias := none, expiresAt := none, isActive := true, clickCount := 0 }

/-- The state after that allocation: record stored and written through the
cache. -/
def zeroExpiryState : ServerState :=
  { urls := [zeroExpiryRecord], cache := [("ABCDEFG", zeroExpiryRecord)],
    events := [], nextId := 2 }

/-! ### Helper lemmas -/

theorem findFreeCode_some (urls : List UrlRecord) :
    ∀ (draws : List (List Nat)) (c : String), findFreeCode urls draws = some c →
      urls.any (fun r => r.shortCode == c) = false ∧ ∃ d ∈ draws, generateShortCode d = c := by
  intro draws
  induction draws with
  | nil => intro c h; simp [findFreeCode] at h
  | cons d rest ih =>
    intro c h
    simp only [findFreeCode] at h
    by_cases hc : urls.any (fun r => r.shortCode == generateShortCode d) = true
    · rw [if_pos hc] at h
      obtain ⟨hfree, d', hd', he⟩ := ih c h
      exact ⟨hfree, d', List.mem_cons_of_mem _ hd', he⟩
    · rw [if_neg hc] at h
      obtain rfl : generateShortCode d = c := Option.some.inj h
      exact ⟨Bool.eq_false_iff.mpr hc, d, List.mem_cons_self _ _, rfl⟩

theorem findFreeCode_none (urls : List UrlRecord) :
    ∀ (draws : List (List Nat)), findFreeCode urls draws = none ↔
      ∀ d ∈ draws, urls.any (fun r => r.shortCode == generateShortCode d) = true := by
  intro draws
  induction draws with
  | nil => simp [findFreeCode]
  | cons d rest ih =>
    simp only [findFreeCode]
    by_cases hc : urls.any (fun r => r.shortCode == generateShortCode d) = true
    · rw [if_pos hc]
      constructor
      · intro h d' hd'
        rcases List.mem_cons.mp hd' with rfl | hm
        · exact hc
        · exact (ih.mp h) d' hm
      · intro h
        exact ih.mpr (fun d' hd' => h d' (List.mem_cons_of_mem _ hd'))
    · rw [if_neg hc]
      constructor
      · intro h; exact absurd h (Option.some_ne_none _)
      · intro h; exact absurd (h d (List.mem_cons_self _ _)) hc

theorem charAt_length_one : ∀ k, k < 62 → ((charAt codeAlphabet k).data).length = 1 := by
  decide

theorem charAt_mem_alphabet :
    ∀ k, k < 62 → ∀ c ∈ (charAt codeAlphabet k).data, c ∈ codeAlphabet.data := by
  decide

theorem genChars_length (l : List Nat) (h : ∀ k ∈ l, k < 62) :
    (genChars l).length = l.length := by
  induction l with
  | nil => rfl
  | cons k rest ih =>
    simp only [genChars, List.length_append, List.length_cons]
    rw [charAt_length_one k (h k (List.mem_cons_self _ _)),
        ih (fun x hx => h x (List.mem_cons_of_mem _ hx))]
    omega

theorem genChars_mem (l : List Nat) (h : ∀ k ∈ l, k < 62) :
    ∀ c ∈ genChars l, c ∈ codeAlphabet.data := by
  induction l with
  | nil => intro c hc; simp [genChars] at hc
  | cons k rest ih =>
    intro c hc
    simp only [genChars, List.mem_append] at hc
    rcases hc with hc | hc
    · exact charAt_mem_alphabet k (h k (List.mem_cons_self _ _)) c hc
    · exact ih (fun x hx => h x (List.mem_cons_of_mem _ hx)) c hc

theorem generateShortCode_length (l : List Nat) (hl : l.length = 7)
    (h : ∀ k ∈ l, k < 62) : (generateShortCode l).length = 7 := by
  show (String.mk (genChars (l.take 7))).length = 7
  rw [List.take_of_length_le (by omega)]
  show (genChars l).length = 7
  rw [genChars_length l h, hl]

theorem generateShortCode_mem (l : List Nat) (h : ∀ k ∈ l, k < 62) :
    ∀ c ∈ (generateShortCode l).data, c ∈ codeAlphabet.data := by
  intro c hc
  have : c ∈ genChars (l.take 7) := hc
  exact genChars_mem (l.take 7) (fun k hk => h k (List.mem_of_mem_take hk)) c this

theorem shorten_no_alias (st : ServerState) (uid : Nat) (url : String)
    (ei : Option Int) (draws : List (List Nat)) (now : Int) (cf : Bool)
    (hurl : validateUrl url = true) :
    shorten st uid url none ei draws now cf =
      match findFreeCode st.urls draws with
      | none => (ShortenResult.looping, st)
      | some code => finishInsert st uid url code none ei now cf := by
  simp [shorten, hurl, jsTruthyStr]

theorem finishInsert_free (st : ServerState) (uid : Nat) (url code : String)
    (ei : Option Int) (now : Int) (cf : Bool)
    (hlen : code.length ≤ 20)
    (hfree : st.urls.any (fun r => r.shortCode == code) = false) :
    finishInsert st uid url code none ei now cf =
      (ShortenResult.created (freshRecord st uid url code none (computeExpiresAt ei now)),
       setCache (insertedState st (freshRecord st uid url code none (computeExpiresAt ei now)))
         code (freshRecord st uid url code none (computeExpiresAt ei now)) cf) := by
  have htl : tooLong code none = false := by
    simp [tooLong]; omega
  simp [finishInsert, insertUrl, htl, hfree]

theorem lookupRecord_cache_hit (st : ServerState) (code : String) (r : UrlRecord)
    (h : lookupCache st.cache code = some r) :
    lookupRecord st code false = some (r, st) := by
  simp [lookupRecord, h]

theorem lookupRecord_store_hit (st : ServerState) (code : String) (cf : Bool)
    (r : UrlRecord)
    (hmiss : cf = true ∨ lookupCache st.cache code = none)
    (h : storeFindActive st.urls code = some r) :
    lookupRecord st code cf = some (r, setCache st code r cf) := by
  rcases hmiss with rfl | hm
  · simp [lookupRecord, h]
  · cases cf <;> simp [lookupRecord, hm, h]

theorem lookupRecord_miss (st : ServerState) (code : String) (cf : Bool)
    (hmiss : cf = true ∨ lookupCache st.cache code = none)
    (h : storeFindActive st.urls code = none) :
    lookupRecord st code cf = none := by
  rcases hmiss with rfl | hm
  · simp [lookupRecord, h]
  · cases cf <;> simp [lookupRecord, hm, h]

theorem resolveCore_of_lookup_some (st : ServerState) (code : String) (now : Int)
    (cf : Bool) (r : UrlRecord) (st1 : ServerState)
    (h : lookupRecord st code cf = some (r, st1)) :
    resolveCore st code now cf =
      if isExpired r.expiresAt now then (ResolveResult.expired, st1)
      else (ResolveResult.redirect r.originalUrl r.id, st1) := by
  unfold resolveCore
  rw [h]

theorem resolveCore_of_lookup_none (st : ServerState) (code : String) (now : Int)
    (cf : Bool) (h : lookupRecord st code cf = none) :
    resolveCore st code now cf = (ResolveResult.notFound, st) := by
  unfold resolveCore
  rw [h]

theorem storeFindActive_none_of_free (urls : List UrlRecord) (code : String)
    (hfree : urls.any (fun r => r.shortCode == code) = false) :
    urls.find? (fun r => r.shortCode == code && r.isActive) = none := by
  rw [List.find?_eq_none]
  intro x hx hpx
  have hx' : (x.shortCode == code) = true := by
    cases hb : x.shortCode == code with
    | true => rfl
    | false => simp [hb] at hpx
  have : urls.any (fun r => r.shortCode == code) = true :=
    List.any_eq_true.mpr ⟨x, hx, hx'⟩
  rw [hfree] at this
  exact Bool.false_ne_true this

theorem resolveCore_fresh (st : ServerState) (uid : Nat) (url code : String)
    (ca : Option String) (now2 : Int) (cf2 : Bool)
    (hfree : st.urls.any (fun r => r.shortCode == code) = false) :
    resolveCore
        (setCache (insertedState st (freshRecord st uid url code ca none)) code
          (freshRecord st uid url code ca none) false)
        code now2 cf2
      = (ResolveResult.redirect url st.nextId,
         setCache (insertedState st (freshRecord st uid url code ca none)) code
           (freshRecord st uid url code ca none) false) := by
  set r := freshRecord st uid url code ca none with hr
  set st2 := setCache (insertedState st r) code r false with hst2
  cases cf2 with
  | false =>
    have hlc : lookupCache st2.cache code = some r := by
      rw [hst2]
      simp [setCache, insertedState, lookupCache, List.find?]
    rw [resolveCore_of_lookup_some st2 code now2 false r st2
        (lookupRecord_cache_hit st2 code r hlc)]
    simp [hr, freshRecord, isExpired]
  | true =>
    have hsf : storeFindActive st2.urls code = some r := by
      rw [hst2]
      simp only [setCache, insertedState, if_neg Bool.false_ne_true, storeFindActive]
      rw [List.find?_append, storeFindActive_none_of_free st.urls code hfree]
      simp [List.find?, hr, freshRecord]
    have hlr : lookupRecord st2 code true = some (r, setCache st2 code r true) :=
      lookupRecord_store_hit st2 code true r (Or.inl rfl) hsf
    rw [resolveCore_of_lookup_some st2 code now2 true r (setCache st2 code r true) hlr]
    simp [setCache, hr, freshRecord, isExpired]

theorem finishInsert_ok (st : ServerState) (uid : Nat) (url code : String)
    (ca : Option String) (ei : Option Int) (now : Int) (cf : Bool)
    (htl : tooLong code ca = false)
    (hfree : st.urls.any (fun r => r.shortCode == code) = false) :
    finishInsert st uid url code ca ei now cf =
      (ShortenResult.created (freshRecord st uid url code ca (computeExpiresAt ei now)),
       setCache (insertedState st (freshRecord st uid url code ca (computeExpiresAt ei now)))
         code (freshRecord st uid url code ca (computeExpiresAt ei now)) cf) := by
  simp [finishInsert, insertUrl, htl, hfree]

theorem finishInsert_tooLong (st : ServerState) (uid : Nat) (url code : String)
    (ca : Option String) (ei : Option Int) (now : Int) (cf : Bool)
    (htl : tooLong code ca = true) :
    finishInsert st uid url code ca ei now cf = (ShortenResult.internal, st) := by
  simp [finishInsert, insertUrl, htl]

theorem shorten_alias (st : ServerState) (uid : Nat) (url a : String)
    (ei : Option Int) (draws : List (List Nat)) (now : Int) (cf : Bool)
    (hurl : validateUrl url = true) (ha : a ≠ "")
    (hfree : st.urls.any (fun r => r.shortCode == a) = false) :
    shorten st uid url (some a) ei draws now cf
      = finishInsert st uid url a (some a) ei now cf := by
  have hbeq : (a == "") = false := by
    rw [beq_eq_false_iff_ne]
    exact ha
  simp [shorten, hurl, jsTruthyStr, hbeq, hfree]

theorem lookupRecord_state (st : ServerState) (code : String) (cf : Bool)
    (r : UrlRecord) (st1 : ServerState)
    (h : lookupRecord st code cf = some (r, st1)) :
    st1.urls = st.urls ∧ st1.events = st.events ∧ ∀ e ∈ st.cache, e ∈ st1.cache := by
  unfold lookupRecord at h
  rcases hcache : (if cf then none else lookupCache st.cache code) with _ | r'
  · rw [hcache] at h
    rcases hsf : storeFindActive st.urls code with _ | r'
    · rw [hsf] at h
      exact absurd h (by simp)
    · rw [hsf] at h
      simp only [Option.some.injEq, Prod.mk.injEq] at h
      obtain ⟨rfl, rfl⟩ := h
      cases cf with
      | true => exact ⟨rfl, rfl, fun e he => he⟩
      | false => exact ⟨rfl, rfl, fun e he => List.mem_cons_of_mem _ he⟩
  · rw [hcache] at h
    simp only [Option.some.injEq, Prod.mk.injEq] at h
    obtain ⟨rfl, rfl⟩ := h
    exact ⟨rfl, rfl, fun e he => he⟩

theorem insertUrl_inverted (st : ServerState) (uid : Nat) (url code : String)
    (ca : Option String) (ea : Option Int) (r : UrlRecord) (st1 : ServerState)
    (h : insertUrl st uid url code ca ea = InsertOutcome.inserted r st1) :
    r = freshRecord st uid url code ca ea
      ∧ st.urls.any (fun x => x.shortCode == code) = false
      ∧ st1 = insertedState st r := by
  unfold insertUrl at h
  by_cases h1 : tooLong code ca = true
  · rw [if_pos h1] at h
    simp at h
  · rw [if_neg h1] at h
    by_cases h2 : st.urls.any (fun x => x.shortCode == code) = true
    · rw [if_pos h2] at h
      simp at h
    · rw [if_neg h2] at h
      injection h with hr hst
      subst hr
      subst hst
      exact ⟨rfl, Bool.eq_false_iff.mpr h2, rfl⟩

theorem finishInsert_created_inverted (st : ServerState) (uid : Nat)
    (url code : String) (ca : Option String) (ei : Option Int) (now : Int)
    (cf : Bool) (r : UrlRecord) (st' : ServerState)
    (h : finishInsert st uid url code ca ei now cf = (ShortenResult.created r, st')) :
    r = freshRecord st uid url code ca (computeExpiresAt ei now)
      ∧ st.urls.any (fun x => x.shortCode == code) = false
      ∧ st' = setCache (insertedState st r) code r cf := by
  unfold finishInsert at h
  cases heq : insertUrl st uid url code ca (computeExpiresAt ei now) with
  | inserted r' st1 =>
    rw [heq] at h
    simp only [Prod.mk.injEq, ShortenResult.created.injEq] at h
    obtain ⟨rfl, rfl⟩ := h
    obtain ⟨hfr, hfree, hst1⟩ := insertUrl_inverted st uid url code ca _ r' st1 heq
    exact ⟨hfr, hfree, by rw [hst1]⟩
  | uniqueViolation =>
    rw [heq] at h
    simp at h
  | valueTooLong =>
    rw [heq] at h
    simp at h

theorem shorten_created_inverted (st : ServerState) (uid : Nat) (url : String)
    (ca : Option String) (ei : Option Int) (draws : List (List Nat)) (now : Int)
    (cf : Bool) (r : UrlRecord) (st' : ServerState)
    (h : shorten st uid url ca ei draws now cf = (ShortenResult.created r, st')) :
    ∃ code, r = freshRecord st uid url code ca (computeExpiresAt ei now)
      ∧ st.urls.any (fun x => x.shortCode == code) = false
      ∧ st' = setCache (insertedState st r) code r cf := by
  unfold shorten at h
  by_cases hv : (!validateUrl url) = true
  · rw [if_pos hv] at h
    simp at h
  · rw [if_neg hv] at h
    by_cases hj : jsTruthyStr ca = true
    · rw [if_pos hj] at h
      by_cases hex : st.urls.any (fun x => x.shortCode == ca.getD ("")) = true
      · rw [if_pos hex] at h
        simp at h
      · rw [if_neg hex] at h
        exact ⟨ca.getD (""),
          finishInsert_created_inverted st uid url (ca.getD ("")) ca ei now cf r st' h⟩
    · rw [if_neg hj] at h
      cases hfc : findFreeCode st.urls draws with
      | none =>
        rw [hfc] at h
        simp at h
      | some code =>
        rw [hfc] at h
        exact ⟨code, finishInsert_created_inverted st uid url code ca ei now cf r st' h⟩

theorem finishInsert_state_shape (st : ServerState) (uid : Nat) (url code : String)
    (ca : Option String) (ei : Option Int) (now : Int) (cf : Bool) :
    (finishInsert st uid url code ca ei now cf).2.urls = st.urls
      ∨ ∃ nr, (finishInsert st uid url code ca ei now cf).2.urls = st.urls ++ [nr]
          ∧ nr.clickCount = 0 := by
  unfold finishInsert
  cases heq : insertUrl st uid url code ca (computeExpiresAt ei now) with
  | inserted r' st1 =>
    obtain ⟨hfr, hfree, hst1⟩ := insertUrl_inverted st uid url code ca _ r' st1 heq
    right
    refine ⟨r', ?_, by rw [hfr]; rfl⟩
    show (setCache st1 code r' cf).urls = st.urls ++ [r']
    rw [hst1]
    cases cf <;> simp [setCache, insertedState]
  | uniqueViolation => left; rfl
  | valueTooLong => left; rfl

theorem shorten_state_shape (st : ServerState) (uid : Nat) (url : String)
    (ca : Option String) (ei : Option Int) (draws : List (List Nat)) (now : Int)
    (cf : Bool) :
    (shorten st uid url ca ei draws now cf).2.urls = st.urls
      ∨ ∃ nr, (shorten st uid url ca ei draws now cf).2.urls = st.urls ++ [nr]
          ∧ nr.clickCount = 0 := by
  unfold shorten
  by_cases hv : (!validateUrl url) = true
  · rw [if_pos hv]
    left; rfl
  · rw [if_neg hv]
    by_cases hj : jsTruthyStr ca = true
    · rw [if_pos hj]
      by_cases hex : st.urls.any (fun x => x.shortCode == ca.getD ("")) = true
      · rw [if_pos hex]
        left; rfl
      · rw [if_neg hex]
        exact finishInsert_state_shape st uid url (ca.getD ("")) ca ei now cf
    · rw [if_neg hj]
      cases hfc : findFreeCode st.urls draws with
      | none => left; rfl
      | some code => exact finishInsert_state_shape st uid url code ca ei now cf

theorem resolveCore_preserves (st : ServerState) (code : String) (now : Int)
    (cf : Bool) :
    ((resolveCore st code now cf).2).urls = st.urls
      ∧ ((resolveCore st code now cf).2).events = st.events := by
  cases hl : lookupRecord st code cf with
  | none =>
    rw [resolveCore_of_lookup_none st code now cf hl]
    exact ⟨rfl, rfl⟩
  | some pr =>
    obtain ⟨r, st1⟩ := pr
    obtain ⟨h1, h2, _⟩ := lookupRecord_state st code cf r st1 hl
    rw [resolveCore_of_lookup_some st code now cf r st1 hl]
    by_cases he : isExpired r.expiresAt now = true
    · rw [if_pos he]
      exact ⟨h1, h2⟩
    · rw [if_neg he]
      exact ⟨h1, h2⟩

theorem recordClick_ok_urls (st : ServerState) (i : Nat) (inf : Bool) :
    (recordClick st i false inf).urls = (incrementClick st i).urls := by
  cases inf <;> simp [recordClick, appendEvent]

/-! ### Claim theorems -/

/-- C1.  The claim states that two concurrent allocations of the same custom
alias yield exactly one created record and one AliasTaken failure, because the
uniqueness check-and-insert is a single atomic store operation.  The handler
instead runs a separate existence check followed by an insert: under the
interleaving in which both checks run before either insert (on an empty
store, both requests carrying the alias `mylink`), the first insert succeeds
and the second hits the store's uniqueness constraint, which the generic
catch surfaces as a 500 internal error — not as the 400 AliasTaken failure
the claim requires. -/
theorem alias_race_check_then_insert :
    (twoAliasBothCheckFirst emptyState raceReq1 raceReq2 0).1
        = ShortenResult.created raceRecord
      ∧ (twoAliasBothCheckFirst emptyState raceReq1 raceReq2 0).2.1
        = ShortenResult.internal
      ∧ (twoAliasBothCheckFirst emptyState raceReq1 raceReq2 0).2.1
        ≠ ShortenResult.aliasTaken := by
  refine ⟨by decide, by decide, by decide⟩

/-- C2, counterexample.  The claim states that the generate-and-insert loop
retries at most 10 attempts and fails with AllocationExhausted beyond that.
On a store holding the code `AAAAAAA` and an entropy stream whose first
eleven candidates all collide, the handler simply keeps retrying and succeeds
on the twelfth candidate — there is no bound and no AllocationExhausted
outcome. -/
theorem generate_loop_exceeds_bound :
    collisionDraws.length = 12
      ∧ (∀ d ∈ collisionDraws.take 11,
          collisionState.urls.any (fun r => r.shortCode == generateShortCode d) = true)
      ∧ (shorten collisionState 1 ("https://new.example") none none collisionDraws 0 false).1
        = ShortenResult.created
            (freshRecord collisionState 1 ("https://new.example") ("BAAAAAA") none none) := by
  refine ⟨by decide, by decide, by decide⟩

/-- C2, amended.  The generate-and-insert loop of the shorten handler retries
without any bound: it returns the first generated candidate that is free in
the store, and it fails to terminate (rather than failing with an
AllocationExhausted error, which does not exist in the code) exactly when
every candidate the entropy stream yields collides with a stored code. -/
theorem generate_loop_unbounded (urls : List UrlRecord) (draws : List (List Nat)) :
    (∀ c : String, findFreeCode urls draws = some c →
        urls.any (fun r => r.shortCode == c) = false ∧ ∃ d ∈ draws, generateShortCode d = c)
      ∧ (findFreeCode urls draws = none ↔
          ∀ d ∈ draws, urls.any (fun r => r.shortCode == generateShortCode d) = true) :=
  ⟨fun c h => findFreeCode_some urls draws c h, findFreeCode_none urls draws⟩

/-- C2, witness: the amended theorem applied to the collision scenario, where
the twelfth candidate `BAAAAAA` is the one returned. -/
theorem generate_loop_unbounded_witness :
    collisionState.urls.any (fun r => r.shortCode == "BAAAAAA") = false
      ∧ ∃ d ∈ collisionDraws, generateShortCode d = "BAAAAAA" :=
  (generate_loop_unbounded collisionState.urls collisionDraws).1 ("BAAAAAA") (by decide)

/-- C3.  For every valid URL submitted without a custom alias (and without an
expiry), whenever the entropy stream lets the generate loop terminate — its
chunks being genuine draws: seven values below 62 each — the allocation
succeeds, the returned short code has length exactly 7 and is drawn from the
62-character alphabet, and immediately resolving that code (with or without a
working cache) returns the submitted URL unchanged. -/
theorem allocate_roundtrip (st : ServerState) (uid : Nat) (url : String)
    (draws : List (List Nat)) (now : Int)
    (hurl : validateUrl url = true)
    (hdraws : ∀ d ∈ draws, d.length = 7 ∧ ∀ k ∈ d, k < 62)
    (hfree : (findFreeCode st.urls draws).isSome = true) :
    ∃ r st', shorten st uid url none none draws now false = (ShortenResult.created r, st')
      ∧ r.shortCode.length = 7
      ∧ (∀ ch ∈ r.shortCode.data, ch ∈ codeAlphabet.data)
      ∧ r.originalUrl = url
      ∧ ∀ now2 cf2, resolveCore st' r.shortCode now2 cf2
          = (ResolveResult.redirect url r.id, st') := by
  obtain ⟨code, hc⟩ := Option.isSome_iff_exists.mp hfree
  obtain ⟨hcfree, d, hd, hgen⟩ := findFreeCode_some st.urls draws code hc
  obtain ⟨hd7, hdlt⟩ := hdraws d hd
  have hlen : code.length = 7 := by
    rw [← hgen]; exact generateShortCode_length d hd7 hdlt
  have hmem : ∀ ch ∈ code.data, ch ∈ codeAlphabet.data := by
    rw [← hgen]; exact generateShortCode_mem d hdlt
  have hea : computeExpiresAt none now = none := rfl
  refine ⟨freshRecord st uid url code none none,
    setCache (insertedState st (freshRecord st uid url code none none)) code
      (freshRecord st uid url code none none) false, ?_, hlen, hmem, rfl, ?_⟩
  · rw [shorten_no_alias st uid url none draws now false hurl, hc]
    show finishInsert st uid url code none none now false = _
    rw [finishInsert_free st uid url code none now false (by omega) hcfree, hea]
  · intro now2 cf2
    exact resolveCore_fresh st uid url code none now2 cf2 hcfree

/-- C4, counterexample.  The claim states that a record with isActive false
resolves to NotFound on every resolve, including resolves served from a
Cache Layer hit.  In the state below the store's record for `abc` is
inactive, but the cache still holds the snapshot taken before deactivation;
the cache-hit path of the redirect handler never consults isActive, so the
resolve redirects instead of failing with NotFound. -/
theorem inactive_cache_hit_redirects :
    (∀ r ∈ staleState.urls, r.shortCode = "abc" → r.isActive = false)
      ∧ (resolveCore staleState ("abc") 0 false).1
        = ResolveResult.redirect ("https://target.example") 1
      ∧ (resolveCore staleState ("abc") 0 false).1 ≠ ResolveResult.notFound := by
  refine ⟨by decide, by decide, by decide⟩

/-- C4, amended.  An inactive record is treated as not-found whenever the
resolve reaches the Durable Store (a cache miss, or a failing cache): the
store query filters on is_active, so if every record carrying the code is
inactive the resolve fails with NotFound and leaves the state unchanged.  A
resolve served from a Cache Layer hit uses the cached snapshot without
re-checking isActive and may still redirect (staleness bounded by the TTL). -/
theorem inactive_store_lookup_notFound (st : ServerState) (code : String)
    (now : Int) (cf : Bool)
    (hm : lookupCache st.cache code = none)
    (hi : ∀ r ∈ st.urls, r.shortCode = code → r.isActive = false) :
    resolveCore st code now cf = (ResolveResult.notFound, st) := by
  have hsf : storeFindActive st.urls code = none := by
    unfold storeFindActive
    rw [List.find?_eq_none]
    intro x hx hpx
    rcases Bool.and_eq_true _ _ |>.mp hpx with ⟨h1, h2⟩
    have hsc : x.shortCode = code := by
      have := h1
      exact eq_of_beq this
    rw [hi x hx hsc] at h2
    exact Bool.false_ne_true h2
  exact resolveCore_of_lookup_none st code now cf
    (lookupRecord_miss st code cf (Or.inr hm) hsf)

/-- C4, witness for the amended theorem: a cache miss on a store whose only
record for `abc` is inactive resolves to NotFound. -/
theorem inactive_store_lookup_notFound_witness :
    resolveCore missState ("abc") 0 false = (ResolveResult.notFound, missState) :=
  inactive_store_lookup_notFound missState ("abc") 0 false (by decide) (by decide)

/-- C7.  Resolving a code whose record carries an expiresAt earlier than the
current time fails with Expired, and the failed resolve does not delete
anything: the store rows and the analytics log are exactly those of the
pre-state, and every cache entry of the pre-state is still present (the
lookup may only have added a binding, never removed one). -/
theorem expired_resolve_preserves_store (st : ServerState) (code : String)
    (now : Int) (cf uf inf : Bool) (r : UrlRecord) (st1 : ServerState) (t : Int)
    (hl : lookupRecord st code cf = some (r, st1))
    (he : r.expiresAt = some t) (ht : t < now) :
    handleRedirect st code now cf uf inf = (ResolveResult.expired, st1)
      ∧ st1.urls = st.urls ∧ st1.events = st.events
      ∧ ∀ e ∈ st.cache, e ∈ st1.cache := by
  have hexp : isExpired r.expiresAt now = true := by
    simp [isExpired, he, ht]
  have hres : resolveCore st code now cf = (ResolveResult.expired, st1) := by
    rw [resolveCore_of_lookup_some st code now cf r st1 hl, if_pos hexp]
  refine ⟨?_, lookupRecord_state st code cf r st1 hl⟩
  unfold handleRedirect
  rw [hres]

/-- C7, witness: a cache hit on a record that expired at time 5, resolved at
time 10. -/
theorem expired_resolve_preserves_store_witness :
    handleRedirect expiredState ("old") 10 false false false
        = (ResolveResult.expired, expiredState)
      ∧ expiredState.urls = expiredState.urls
      ∧ expiredState.events = expiredState.events
      ∧ ∀ e ∈ expiredState.cache, e ∈ expiredState.cache :=
  expired_resolve_preserves_store expiredState ("old") 10 false false false
    expiredRecord expiredState 5 (by decide) (by decide) (by decide)

/-- C8.  When every cache operation fails, the resolve falls back to the
Durable Store and the failure is never surfaced: if the store holds an
active record for the code that is not expired, the redirect request still
responds with the original URL. -/
theorem cache_failure_fallback (st : ServerState) (code : String) (now : Int)
    (uf inf : Bool) (r : UrlRecord)
    (hs : storeFindActive st.urls code = some r)
    (he : ∀ t, r.expiresAt = some t → ¬ t < now) :
    (handleRedirect st code now true uf inf).1
      = ResolveResult.redirect r.originalUrl r.id := by
  have hexp : isExpired r.expiresAt now = false := by
    cases hre : r.expiresAt with
    | none => rfl
    | some t => simp [isExpired, he t hre]
  have hlr : lookupRecord st code true = some (r, setCache st code r true) :=
    lookupRecord_store_hit st code true r (Or.inl rfl) hs
  unfold handleRedirect
  rw [resolveCore_of_lookup_some st code now true r (setCache st code r true) hlr,
      if_neg (by simp [hexp])]

/-- C8, witness: with the cache failing on both get and set, the store's
active record for `xyz` still redirects to its URL. -/
theorem cache_failure_fallback_witness :
    (handleRedirect storeOnlyState ("xyz") 0 true false false).1
      = ResolveResult.redirect ("https://store.example") 1 :=
  cache_failure_fallback storeOnlyState ("xyz") 0 false false storeOnlyRecord
    (by decide) (fun t h => by simp [storeOnlyRecord] at h)

/-- C5, counterexample.  The claim states that a failure of the clickCount
update does not prevent the ClickEvent append.  In the code both operations
live in one try block, so when the counter update throws (and the append on
its own would have succeeded), control jumps to the catch and no event is
appended: the analytics log is unchanged. -/
theorem click_update_failure_skips_append :
    (∃ r ∈ clickState.urls, r.id = 1)
      ∧ (recordClick clickState 1 true false).events = clickState.events
      ∧ clickState.events = [] := by
  refine ⟨by decide, by decide, by decide⟩

/-- C5, amended.  The two analytics operations are best-effort and swallowed:
no combination of failures ever changes the redirect response; a failure of
the event append does not roll back the already-committed counter increment;
and a failure of the counter update is swallowed without partial effect —
but, both operations sharing one try block, it also skips the event append. -/
theorem click_recorder_isolation :
    (∀ (st : ServerState) (code : String) (now : Int) (cf uf inf : Bool),
        (handleRedirect st code now cf uf inf).1 = (resolveCore st code now cf).1)
      ∧ (∀ (st : ServerState) (i : Nat) (inf : Bool),
          (recordClick st i false inf).urls = (incrementClick st i).urls)
      ∧ (∀ (st : ServerState) (i : Nat) (inf : Bool),
          recordClick st i true inf = st) := by
  refine ⟨?_, ?_, ?_⟩
  · intro st code now cf uf inf
    unfold handleRedirect
    rcases hres : resolveCore st code now cf with ⟨res, st1⟩
    cases res <;> rfl
  · intro st i inf
    cases inf <;> simp [recordClick, appendEvent]
  · intro st i inf
    simp [recordClick]

/-- C6, counterexample.  The claim states that every alias within the 1–50
character policy (explicitly including lengths 21–50) is accepted, with only
uniqueness able to cause failure.  The handler performs no alias validation
at all, and the store's short_code column is VARCHAR(20): a 25-character
alias on an empty store (no uniqueness conflict possible) fails at the
insert with the column's length constraint, surfaced by the generic catch as
a 500 internal error — there is no InvalidAlias outcome anywhere. -/
theorem long_alias_rejected_by_store :
    ("abcdefghijklmnopqrstuvwxy").length = 25
      ∧ (shorten emptyState 1 ("https://example.com")
          (some "abcdefghijklmnopqrstuvwxy") none [] 0 false).1
        = ShortenResult.internal := by
  refine ⟨by decide, by decide⟩

/-- C6, amended.  The handler never validates the alias: any non-empty alias
that passes the (separate) existence check goes straight to the store.  An
alias of at most 20 characters is inserted as the short code regardless of
its content, so only uniqueness can make it fail; an alias longer than 20
characters fails at the store's short_code column limit and surfaces as a
500 internal error, not as an InvalidAlias rejection. -/
theorem alias_no_validation (st : ServerState) (uid : Nat) (url a : String)
    (ei : Option Int) (draws : List (List Nat)) (now : Int) (cf : Bool)
    (hurl : validateUrl url = true) (ha : a ≠ "")
    (hfree : st.urls.any (fun r => r.shortCode == a) = false) :
    (a.length ≤ 20 →
        shorten st uid url (some a) ei draws now cf
          = (ShortenResult.created (freshRecord st uid url a (some a) (computeExpiresAt ei now)),
             setCache
               (insertedState st (freshRecord st uid url a (some a) (computeExpiresAt ei now)))
               a (freshRecord st uid url a (some a) (computeExpiresAt ei now)) cf))
      ∧ (20 < a.length →
          (shorten st uid url (some a) ei draws now cf).1 = ShortenResult.internal) := by
  constructor
  · intro hle
    have htl : tooLong a (some a) = false := by
      simp [tooLong]
      omega
    rw [shorten_alias st uid url a ei draws now cf hurl ha hfree,
        finishInsert_ok st uid url a (some a) ei now cf htl hfree]
  · intro hgt
    have htl : tooLong a (some a) = true := by
      simp [tooLong]
      omega
    rw [shorten_alias st uid url a ei draws now cf hurl ha hfree,
        finishInsert_tooLong st uid url a (some a) ei now cf htl]

/-- C6, witness for the amended theorem: the 4-character alias `team` is
accepted on the empty store. -/
theorem alias_no_validation_witness :
    shorten emptyState 1 ("https://example.com") (some "team") none [] 0 false
      = (ShortenResult.created
           (freshRecord emptyState 1 ("https://example.com") ("team") (some "team")
             (computeExpiresAt none 0)),
         setCache
           (insertedState emptyState
             (freshRecord emptyState 1 ("https://example.com") ("team") (some "team")
               (computeExpiresAt none 0)))
           ("team")
           (freshRecord emptyState 1 ("https://example.com") ("team") (some "team")
             (computeExpiresAt none 0)) false) :=
  (alias_no_validation emptyState 1 ("https://example.com") ("team") none [] 0 false
    (by decide) (by decide) (by decide)).1 (by decide)

/-- C9.  The clickCount of a record never decreases across the core
operations.  Allocation carries every existing record over unchanged and
creates new records with clickCount 0; the resolver proper never touches the
store rows; the click recorder, on any combination of failures, leaves every
record either unchanged or incremented by one — and a successful recording
increments the targeted record by exactly one. -/
theorem clickCount_monotone :
    (∀ (st : ServerState) (uid : Nat) (url : String) (ca : Option String)
        (ei : Option Int) (draws : List (List Nat)) (now : Int) (cf : Bool)
        (r : UrlRecord), r ∈ st.urls → r ∈ (shorten st uid url ca ei draws now cf).2.urls)
      ∧ (∀ (st : ServerState) (uid : Nat) (url : String) (ca : Option String)
          (ei : Option Int) (draws : List (List Nat)) (now : Int) (cf : Bool)
          (r : UrlRecord), r ∈ (shorten st uid url ca ei draws now cf).2.urls →
            r ∉ st.urls → r.clickCount = 0)
      ∧ (∀ (st : ServerState) (code : String) (now : Int) (cf : Bool),
          ((resolveCore st code now cf).2).urls = st.urls)
      ∧ (∀ (st : ServerState) (i : Nat) (uf inf : Bool) (r : UrlRecord), r ∈ st.urls →
          ∃ r' ∈ (recordClick st i uf inf).urls,
            r'.id = r.id ∧ (r'.clickCount = r.clickCount ∨ r'.clickCount = r.clickCount + 1))
      ∧ (∀ (st : ServerState) (i : Nat) (r : UrlRecord), r ∈ st.urls → r.id = i →
          { r with clickCount := r.clickCount + 1 } ∈ (recordClick st i false false).urls) := by
  refine ⟨?_, ?_, ?_, ?_, ?_⟩
  · intro st uid url ca ei draws now cf r hr
    rcases shorten_state_shape st uid url ca ei draws now cf with h | ⟨nr, h, _⟩
    · rw [h]; exact hr
    · rw [h]; exact List.mem_append_left _ hr
  · intro st uid url ca ei draws now cf r hr hnot
    rcases shorten_state_shape st uid url ca ei draws now cf with h | ⟨nr, h, h0⟩
    · rw [h] at hr; exact absurd hr hnot
    · rw [h] at hr
      rcases List.mem_append.mp hr with hm | hm
      · exact absurd hm hnot
      · rw [List.mem_singleton.mp hm]; exact h0
  · intro st code now cf
    exact (resolveCore_preserves st code now cf).1
  · intro st i uf inf r hr
    cases uf with
    | true =>
      refine ⟨r, ?_, rfl, Or.inl rfl⟩
      show r ∈ st.urls
      exact hr
    | false =>
      rw [recordClick_ok_urls st i inf]
      have hm := List.mem_map_of_mem
        (fun x => if x.id == i then { x with clickCount := x.clickCount + 1 } else x) hr
      cases hbeq : r.id == i with
      | true =>
        simp only [hbeq, if_true] at hm
        exact ⟨{ r with clickCount := r.clickCount + 1 }, hm, rfl, Or.inr rfl⟩
      | false =>
        simp only [hbeq, if_false] at hm
        exact ⟨r, hm, rfl, Or.inl rfl⟩
  · intro st i r hr hid
    rw [recordClick_ok_urls st i false]
    have hbeq : (r.id == i) = true := by
      rw [hid]
      exact beq_self_eq_true i
    have hm := List.mem_map_of_mem
      (fun x => if x.id == i then { x with clickCount := x.clickCount + 1 } else x) hr
    simp only [hbeq, if_true] at hm
    exact hm

/-- C9, witness: a successful click recording on a record with three clicks
yields the same record with four. -/
theorem clickCount_monotone_witness :
    { clickRecordBase with clickCount := 4 } ∈ (recordClick clickState 1 false false).urls :=
  clickCount_monotone.2.2.2.2 clickState 1 clickRecordBase (by decide) (by decide)

/-- C10.  `if (expiresIn)` treats the number 0 as falsy, so an allocation
with expiresIn equal to 0 creates a record whose expiresAt is null; resolving
the freshly created code can therefore never fail with Expired, at any
current time, whether served from the cache or (with a failing cache) from
the store. -/
theorem zero_expiry_never_expires (st : ServerState) (uid : Nat) (url : String)
    (ca : Option String) (draws : List (List Nat)) (now : Int) (r : UrlRecord)
    (st' : ServerState)
    (h : shorten st uid url ca (some 0) draws now false = (ShortenResult.created r, st')) :
    r.expiresAt = none
      ∧ ∀ now2 cf2, (resolveCore st' r.shortCode now2 cf2).1 ≠ ResolveResult.expired := by
  obtain ⟨code, hfr, hfree, hst'⟩ :=
    shorten_created_inverted st uid url ca (some 0) draws now false r st' h
  have hea : computeExpiresAt (some 0) now = none := rfl
  rw [hea] at hfr
  refine ⟨by rw [hfr]; rfl, ?_⟩
  intro now2 cf2
  rw [hst', hfr]
  rw [show (freshRecord st uid url code ca none).shortCode = code from rfl]
  rw [resolveCore_fresh st uid url code ca now2 cf2 hfree]
  simp

/-- C10, witness: allocating with expiresIn 0 on the empty store creates the
never-expiring record `ABCDEFG`. -/
theorem zero_expiry_never_expires_witness :
    zeroExpiryRecord.expiresAt = none
      ∧ ∀ now2 cf2, (resolveCore zeroExpiryState zeroExpiryRecord.shortCode now2 cf2).1
          ≠ ResolveResult.expired :=
  zero_expiry_never_expires emptyState 1 ("https://example.com") none
    [[0, 1, 2, 3, 4, 5, 6]] 0 zeroExpiryRecord zeroExpiryState (by decide)

/-- C3, witness: a concrete allocation on the empty store with the entropy
chunk 0,1,2,3,4,5,6 (producing the code `ABCDEFG`). -/
theorem allocate_roundtrip_witness :
    ∃ r st', shorten emptyState 1 ("https://example.com") none none
        [[0, 1, 2, 3, 4, 5, 6]] 0 false = (ShortenResult.created r, st')
      ∧ r.shortCode.length = 7
      ∧ (∀ ch ∈ r.shortCode.data, ch ∈ codeAlphabet.data)
      ∧ r.originalUrl = "https://example.com"
      ∧ ∀ now2 cf2, resolveCore st' r.shortCode now2 cf2
          = (ResolveResult.redirect ("https://example.com") r.id, st') :=
  allocate_roundtrip emptyState 1 ("https://example.com") [[0, 1, 2, 3, 4, 5, 6]] 0
    (by decide) (by decide) (by decide)

end LinkSnap
